import Mathlib

/-!
Verification development for the Lateral-Movement NIDS repository.

The repository ships the Flask glue layer (`app.py`) together with a
classification pipeline module (`nids_pipeline`) that the glue imports.
The glue functions (`allowed_file`, the label-column defaulting in the
`train` handler) are embedded directly from `app.py`.  The pipeline module
itself is not part of the visible sources, so its operations are modelled
from the specification document, component by component, and marked as
such in their doc comments.
-/

/- ### Glue layer: `app.py` -/

/-- The allowed upload extensions, from `app.py` (`ALLOWED_EXTENSIONS = {"csv"}`).
A filename is modelled as its list of characters. -/
def ALLOWED_EXTENSIONS : List (List Char) := [['c', 's', 'v']]

/-- Characters after the last '.' of a filename, i.e. `filename.rsplit(".", 1)[1]`
when a dot is present. -/
def afterLastDot (cs : List Char) : List Char :=
  (cs.reverse.takeWhile (fun c => c ≠ '.')).reverse

/-- Character-wise lower-casing, i.e. `str.lower()` restricted to ASCII case. -/
def lowerChars (cs : List Char) : List Char :=
  cs.map Char.toLower

/-- Embedding of `allowed_file` from `app.py`:
`"." in filename and filename.rsplit(".", 1)[1].lower() in ALLOWED_EXTENSIONS`. -/
def allowed_file (cs : List Char) : Bool :=
  decide ('.' ∈ cs) && decide (lowerChars (afterLastDot cs) ∈ ALLOWED_EXTENSIONS)

/-- Python whitespace characters stripped by `str.strip()`. -/
def isPySpace (c : Char) : Bool :=
  c = ' ' || c = '\t' || c = '\n' || c = '\r' || c = Char.ofNat 11 || c = Char.ofNat 12

/-- Embedding of `str.strip()`: drop whitespace from both ends. -/
def stripChars (cs : List Char) : List Char :=
  ((cs.dropWhile isPySpace).reverse.dropWhile isPySpace).reverse

/-- The literal string "label" as characters. -/
def labelChars : List Char := ['l', 'a', 'b', 'e', 'l']

/-- Embedding of the label-column computation in the `train` handler of `app.py`:
`request.form.get("label_column", "label").strip() or "label"`.
`field` is the raw form field (`none` when absent). -/
def label_column_of (field : Option (List Char)) : List Char :=
  let s := stripChars (field.getD labelChars)
  if s = [] then labelChars else s

/- ### Pipeline core: data model -/

/-- Modelled from the spec: a raw CSV cell of the missing `nids_pipeline`
module is a string, a number, or empty (§3 RawRecord: "string/number/empty"). -/
inductive Cell
  | empty
  | num (q : ℚ)
  | str (s : String)
deriving DecidableEq

/-- Modelled from the spec: a RawRecord of the missing `nids_pipeline` module
is a mapping from column name to raw cell value (§3). -/
abbrev RawRecord := List (String × Cell)

/-- Lookup of a column in a RawRecord; an absent column reads as empty. -/
def getCell : RawRecord → String → Cell
  | [], _ => .empty
  | (k, v) :: r, c => if k = c then v else getCell r c

/-- Modelled from the spec: a parsed CSV file of the missing `nids_pipeline`
module, a header (column set, consistent across rows) plus one RawRecord per row. -/
structure Csv where
  header : List String
  rows : List RawRecord
deriving DecidableEq

/-- Modelled from the spec: the error taxonomy of the missing `nids_pipeline`
module (§7). -/
inductive PipelineError
  | schemaMismatch
  | emptyDataset
  | insufficientData
  | trainingError
  | corruptArtifact
  | modelNotTrained
deriving DecidableEq

/-- Modelled from the spec: a feature column's type tag of the missing
`nids_pipeline` module — numeric (with its training-set imputation mean) or
categorical (with the category→code map recorded in first-seen order) (§3, §4.1). -/
inductive ColType
  | numeric (mean : ℚ)
  | categorical (codes : List (Cell × Nat))
deriving DecidableEq

/-- Modelled from the spec: one FeatureSchema entry — a column name with its
type tag (§3 FeatureSchema). -/
structure FeatureColumn where
  name : String
  ty : ColType
deriving DecidableEq

/-- Modelled from the spec: a FeatureSchema is an ordered list of tagged
feature columns (§3). -/
abbrev FeatureSchema := List FeatureColumn

/-- Lookup of a category cell in a category→code map. -/
def codeOf : List (Cell × Nat) → Cell → Option Nat
  | [], _ => none
  | (k, n) :: m, v => if k = v then some n else codeOf m v

/-- Reverse lookup: the category cell carrying a given code. -/
def classOfCode : List (Cell × Nat) → Nat → Cell
  | [], _ => .empty
  | (k, n) :: m, c => if n = c then k else classOfCode m c

/-- Modelled from the spec: the reserved "unknown" code of the missing
`nids_pipeline` module — one past every code assigned at training (§4.1). -/
def unknownCode (m : List (Cell × Nat)) : Nat := m.length

/- ### Pipeline core: Schema Normalizer (spec §4.1) -/

/-- A cell usable in a numeric column: empty or a number. -/
def isNumCell : Cell → Bool
  | .empty => true
  | .num _ => true
  | .str _ => false

/-- The numeric content of a cell, when present. -/
def cellNum? : Cell → Option ℚ
  | .num q => some q
  | _ => none

/-- Arithmetic mean of a list of rationals (0 for the empty list). -/
def meanOf (l : List ℚ) : ℚ :=
  if l.length = 0 then 0 else l.sum / l.length

/-- Modelled from the spec: categorical codes of the missing `nids_pipeline`
module are integer codes assigned by first-seen order over the training
column's values (§4.1). -/
def firstSeenCodes (vs : List Cell) : List (Cell × Nat) :=
  vs.foldl (fun acc v => if (codeOf acc v).isSome then acc else acc ++ [(v, acc.length)]) []

/-- Modelled from the spec: training-mode type inference of the missing
`nids_pipeline` module — a column is numeric when every non-empty value parses
as a number, else categorical; numeric columns record their training mean for
imputation (§4.1). -/
def inferColType (vs : List Cell) : ColType :=
  if vs.all isNumCell then .numeric (meanOf (vs.filterMap cellNum?))
  else .categorical (firstSeenCodes vs)

/-- Modelled from the spec: schema inference at training of the missing
`nids_pipeline` module — every non-label header column, in header order (§4.1). -/
def inferSchema (csv : Csv) (label : String) : FeatureSchema :=
  (csv.header.filter (fun c => decide (c ≠ label))).map
    (fun c => ⟨c, inferColType (csv.rows.map (fun r => getCell r c))⟩)

/-- Modelled from the spec: encoding of one cell under a column type of the
missing `nids_pipeline` module — missing/non-numeric numeric cells are imputed
with the training mean; categorical cells map through the category→code map,
any absent category routed to the reserved "unknown" code (§4.1). -/
def encodeCell : ColType → Cell → ℚ
  | .numeric _, .num q => q
  | .numeric mean, .empty => mean
  | .numeric mean, .str _ => mean
  | .categorical m, v =>
    match codeOf m v with
    | some k => (k : ℚ)
    | none => (unknownCode m : ℚ)

/-- Modelled from the spec: encoding of one row against a FeatureSchema, in
schema order (§3 FeatureMatrix). -/
def encodeRow (schema : FeatureSchema) (r : RawRecord) : List ℚ :=
  schema.map (fun col => encodeCell col.ty (getCell r col.name))

/-- Does the input header provide every column the schema requires? -/
def coversBool (schema : FeatureSchema) (header : List String) : Bool :=
  schema.all (fun col => decide (col.name ∈ header))

/-- Modelled from the spec: inference-mode normalization of the missing
`nids_pipeline` module — applies a locked FeatureSchema verbatim; fails with
SchemaMismatchError when the input lacks a required column and with
EmptyDatasetError when zero usable rows remain (§4.1). -/
def normalizeInference (schema : FeatureSchema) (csv : Csv) :
    Except PipelineError (List (List ℚ)) :=
  if coversBool schema csv.header then
    if csv.rows.isEmpty then .error .emptyDataset
    else .ok (csv.rows.map (encodeRow schema))
  else .error .schemaMismatch

/-- Modelled from the spec: training-mode normalization of the missing
`nids_pipeline` module — derives a fresh FeatureSchema, the FeatureMatrix and
the raw label column (§4.1). -/
def normalizeTraining (csv : Csv) (label : String) :
    Except PipelineError (FeatureSchema × List (List ℚ) × List Cell) :=
  if decide (label ∈ csv.header) then
    if csv.rows.isEmpty then .error .emptyDataset
    else
      let schema := inferSchema csv label
      .ok (schema, csv.rows.map (encodeRow schema), csv.rows.map (fun r => getCell r label))
  else .error .schemaMismatch

/- ### Pipeline core: Dataset Splitter (spec §4.2) -/

/-- Linear congruential pseudo-random step (fixed constants). -/
def lcgNext (s : Nat) : Nat := (1103515245 * s + 12345) % 2147483648

/-- Modelled from the spec: the fixed random seed of the missing
`nids_pipeline` module's splitter (§4.2). -/
def SPLIT_SEED : Nat := 42

/-- Fisher-Yates style deal of a list of indices driven by the LCG stream;
`fuel` bounds the recursion by the list length. -/
def deal : Nat → List Nat → Nat → List Nat
  | 0, xs, _ => xs
  | fuel + 1, xs, s =>
    match xs with
    | [] => []
    | _ =>
      let s' := lcgNext s
      let i := s' % xs.length
      xs.getD i 0 :: deal fuel (xs.eraseIdx i) s'

/-- Deterministic pseudo-random permutation of `[0, n)` under the fixed seed. -/
def permIndices (n : Nat) : List Nat :=
  deal n (List.range n) SPLIT_SEED

/-- Modelled from the spec: the fixed-proportion (80/20), fixed-seed index
split of the missing `nids_pipeline` module (§4.2). -/
def splitIndicesOf (n : Nat) : List Nat × List Nat :=
  let p := permIndices n
  (p.take (n * 4 / 5), p.drop (n * 4 / 5))

/-- Row selection by index list. -/
def selectRows (X : List (List ℚ)) (idxs : List Nat) : List (List ℚ) :=
  idxs.map (fun i => X.getD i [])

/-- Label selection by index list. -/
def selectLabels (y : List Nat) (idxs : List Nat) : List Nat :=
  idxs.map (fun i => y.getD i 0)

/-- A train/holdout split: ((train features, train labels), (holdout features, holdout labels)). -/
abbrev SplitResult := (List (List ℚ) × List Nat) × (List (List ℚ) × List Nat)

/-- Modelled from the spec: the Dataset Splitter of the missing
`nids_pipeline` module — fails with InsufficientDataError below 2 rows, else
splits by the fixed permutation (§4.2). -/
def splitDataset (X : List (List ℚ)) (y : List Nat) : Except PipelineError SplitResult :=
  if X.length < 2 then .error .insufficientData
  else
    let p := splitIndicesOf X.length
    .ok ((selectRows X p.1, selectLabels y p.1), (selectRows X p.2, selectLabels y p.2))

/- ### Pipeline core: Model Trainer (spec §4.3) -/

/-- Modelled from the spec: the classifier abstraction of the missing
`nids_pipeline` module — an opaque fit/predict pair over numeric feature
vectors and integer label codes; fit may fail (§4.3, §9). -/
structure Classifier (M : Type) where
  fit : List (List ℚ) → List Nat → Except Unit M
  predict : M → List ℚ → Nat

/-- Modelled from the spec: training metrics — accuracy, F1 and the holdout
row count (§3 TrainingMetrics). -/
structure TrainingMetrics where
  accuracy : ℚ
  f1 : ℚ
  holdoutCount : Nat
deriving DecidableEq

/-- Accuracy: fraction of exact label matches on the holdout set. -/
def accuracyOf (preds acts : List Nat) : ℚ :=
  if acts.length = 0 then 0
  else ((preds.zip acts).countP (fun p => decide (p.1 = p.2)) : ℚ) / acts.length

/-- True positives of one class. -/
def tpOf (preds acts : List Nat) (c : Nat) : Nat :=
  (preds.zip acts).countP (fun p => decide (p.1 = c ∧ p.2 = c))

/-- False positives of one class. -/
def fpOf (preds acts : List Nat) (c : Nat) : Nat :=
  (preds.zip acts).countP (fun p => decide (p.1 = c ∧ p.2 ≠ c))

/-- False negatives of one class. -/
def fnOf (preds acts : List Nat) (c : Nat) : Nat :=
  (preds.zip acts).countP (fun p => decide (p.1 ≠ c ∧ p.2 = c))

/-- Per-class F1: harmonic mean of precision and recall (0 on empty denominators). -/
def f1OfClass (preds acts : List Nat) (c : Nat) : ℚ :=
  let tp : ℚ := (tpOf preds acts c : ℚ)
  let fp : ℚ := (fpOf preds acts c : ℚ)
  let fn : ℚ := (fnOf preds acts c : ℚ)
  let prec : ℚ := if tp + fp = 0 then 0 else tp / (tp + fp)
  let recl : ℚ := if tp + fn = 0 then 0 else tp / (tp + fn)
  if prec + recl = 0 then 0 else 2 * prec * recl / (prec + recl)

/-- Modelled from the spec: F1 of the missing `nids_pipeline` module,
averaged across the classes present in the holdout labels (§4.3). -/
def f1ScoreOf (preds acts : List Nat) : ℚ :=
  let cs := acts.dedup
  if cs.length = 0 then 0
  else (cs.map (f1OfClass preds acts)).sum / cs.length

/-- Modelled from the spec: the Model Trainer of the missing `nids_pipeline`
module — fit on the training split, evaluate on the holdout split; a failing
fit becomes TrainingError (§4.3). -/
def trainModel {M : Type} (C : Classifier M) (s : SplitResult) :
    Except PipelineError (M × TrainingMetrics) :=
  match C.fit s.1.1 s.1.2 with
  | .error _ => .error .trainingError
  | .ok m =>
    let preds := s.2.1.map (C.predict m)
    .ok (m, ⟨accuracyOf preds s.2.2, f1ScoreOf preds s.2.2, s.2.1.length⟩)

/- ### Pipeline core: Artifact Store (spec §4.4) -/

/-- Modelled from the spec: a ModelArtifact of the missing `nids_pipeline`
module — fitted classifier state, FeatureSchema, label-encoding map, training
metrics and timestamp (§3 ModelArtifact). -/
structure ModelArtifact (M : Type) where
  model : M
  schema : FeatureSchema
  labelCodes : List (Cell × Nat)
  metrics : TrainingMetrics
  timestamp : Nat
deriving DecidableEq

/-- Modelled from the spec: the state of the canonical artifact file of the
missing `nids_pipeline` module — absent, corrupt/unreadable, or a valid
serialized artifact (§4.4). -/
inductive FileState (M : Type)
  | absent
  | corrupt
  | valid (a : ModelArtifact M)
deriving DecidableEq

/-- Modelled from the spec: `save` of the missing `nids_pipeline` module —
writes one self-describing artifact, unconditionally overwriting any prior
file at the canonical path (§4.4). -/
def save_model {M : Type} (a : ModelArtifact M) (_s : FileState M) : FileState M :=
  .valid a

/-- Modelled from the spec: `load` of the missing `nids_pipeline` module —
None when no artifact file exists yet, CorruptArtifactError when the file is
unreadable/malformed, else the artifact (§4.4). -/
def load_model {M : Type} : FileState M → Except PipelineError (Option (ModelArtifact M))
  | .absent => .ok none
  | .corrupt => .error .corruptArtifact
  | .valid a => .ok (some a)

/- ### Pipeline core: training pipeline (spec §6 train_model_from_csv) -/

/-- Encode raw labels through a label-encoding map. -/
def encodeLabels (m : List (Cell × Nat)) (labels : List Cell) : List Nat :=
  labels.map (fun v => (codeOf m v).getD (unknownCode m))

/-- Modelled from the spec: the training pipeline of the missing
`nids_pipeline` module up to (not including) persistence — normalize, derive
the label encoding, split, fit, evaluate, assemble the artifact (§2, §6). -/
def trainCore {M : Type} (C : Classifier M) (csv : Csv) (label : String) (now : Nat) :
    Except PipelineError (ModelArtifact M) := do
  let (schema, X, rawLabels) ← normalizeTraining csv label
  let lm := firstSeenCodes rawLabels
  let y := encodeLabels lm rawLabels
  let s ← splitDataset X y
  let (st, metrics) ← trainModel C s
  pure ⟨st, schema, lm, metrics, now⟩

/-- Modelled from the spec: `train_model_from_csv` of the missing
`nids_pipeline` module — on success persists the artifact (overwriting the
store) and returns the metrics; on any failure the store is left untouched
(§6, §7). -/
def train_model_from_csv {M : Type} (C : Classifier M) (csv : Csv) (label : String)
    (now : Nat) (store : FileState M) :
    Except PipelineError TrainingMetrics × FileState M :=
  match trainCore C csv label now with
  | .error e => (.error e, store)
  | .ok a => (.ok a.metrics, save_model a store)

/- ### Pipeline core: Inference Engine (spec §4.5, §6 predict_from_csv) -/

/-- Modelled from the spec: one per-row prediction — predicted label plus an
optional confidence score (§3 PredictionResult). -/
structure PredictionResult where
  label : Cell
  confidence : Option ℚ
deriving DecidableEq

/-- Modelled from the spec: the aggregate summary — row count, count per
predicted class, and the anomaly rate when a benign class exists (§4.5). -/
structure Summary where
  num_rows : Nat
  classCounts : List (Cell × Nat)
  anomalyRate : Option ℚ
deriving DecidableEq

/-- Occurrences of one predicted label. -/
def countLabel (rs : List PredictionResult) (c : Cell) : Nat :=
  rs.countP (fun r => decide (r.label = c))

/-- Counts per predicted class, over the distinct predicted labels. -/
def classCountsOf (rs : List PredictionResult) : List (Cell × Nat) :=
  ((rs.map (fun r => r.label)).dedup).map (fun c => (c, countLabel rs c))

/-- The benign/normal class of a label encoding, when the label semantics
define one. -/
def benignClassOf (m : List (Cell × Nat)) : Option Cell :=
  (m.map (fun p => p.1)).find?
    (fun c => decide (c = .str "normal") || decide (c = .str "benign"))

/-- Fraction of rows classified as anomalous, when a benign class exists. -/
def anomalyRateOf (m : List (Cell × Nat)) (rs : List PredictionResult) : Option ℚ :=
  match benignClassOf m with
  | none => none
  | some b => some ((rs.countP (fun r => decide (r.label ≠ b)) : ℚ) / rs.length)

/-- Modelled from the spec: the result summary of the missing `nids_pipeline`
module (§4.5). -/
def mkSummary (m : List (Cell × Nat)) (rs : List PredictionResult) : Summary :=
  ⟨rs.length, classCountsOf rs, anomalyRateOf m rs⟩

/-- The whole per-row inference pipeline: encode under the locked schema,
predict, decode the label code back to the class name. -/
def rowPredict {M : Type} (C : Classifier M) (a : ModelArtifact M) (r : RawRecord) :
    PredictionResult :=
  ⟨classOfCode a.labelCodes (C.predict a.model (encodeRow a.schema r)), none⟩

/-- Modelled from the spec: `predict_from_csv` of the missing `nids_pipeline`
module — re-validate the artifact, normalize under the locked schema, predict
each row in order, decode labels, summarize; any failure aborts the whole
batch with no partial results (§4.5, §6). -/
def predict_from_csv {M : Type} (C : Classifier M) (art : Option (ModelArtifact M))
    (csv : Csv) : Except PipelineError (List PredictionResult × Summary) :=
  match art with
  | none => .error .modelNotTrained
  | some a =>
    match normalizeInference a.schema csv with
    | .error e => .error e
    | .ok X =>
      let rs := (X.map (C.predict a.model)).map
        (fun k => (⟨classOfCode a.labelCodes k, none⟩ : PredictionResult))
      .ok (rs, mkSummary a.labelCodes rs)

/-- Dropping one column from a CSV: remove it from the header and from every
row's record. -/
def dropColumn (d : String) (csv : Csv) : Csv :=
  ⟨csv.header.filter (fun c => decide (c ≠ d)),
   csv.rows.map (fun r => r.filter (fun p => decide (p.1 ≠ d)))⟩

/-- Modelled from the spec: the train/holdout membership a training run of the
missing `nids_pipeline` module uses — the split computed from the normalized
input under the fixed seed (§4.2, §8 Determinism). -/
def trainSplitOf (csv : Csv) (label : String) : Except PipelineError SplitResult := do
  let (_, X, rawLabels) ← normalizeTraining csv label
  let lm := firstSeenCodes rawLabels
  splitDataset X (encodeLabels lm rawLabels)

/- ### Demonstration objects (concrete instances used by witnesses) -/

/-- A concrete classifier instance: fit always succeeds, predict is constant. -/
def demoC : Classifier Unit := ⟨fun _ _ => Except.ok (), fun _ _ => 0⟩

/-- A concrete 2-row labeled training CSV. -/
def demoTrainCsv : Csv :=
  ⟨["f", "cat", "label"],
   [[("f", .num 1), ("cat", .str "tcp"), ("label", .str "normal")],
    [("f", .num 2), ("cat", .str "udp"), ("label", .str "attack")]]⟩

/-- The schema a training run on `demoTrainCsv` derives. -/
def demoSchema : FeatureSchema := inferSchema demoTrainCsv "label"

/-- The first row of `demoTrainCsv`. -/
def demoRow0 : RawRecord := [("f", .num 1), ("cat", .str "tcp"), ("label", .str "normal")]

/-- The artifact a training run on `demoTrainCsv` produces. -/
def demoArt : ModelArtifact Unit :=
  match trainCore demoC demoTrainCsv "label" 0 with
  | .ok a => a
  | .error _ => ⟨(), [], [], ⟨0, 0, 0⟩, 0⟩

/-- An unlabeled CSV covering the demo schema. -/
def demoInfCsv : Csv :=
  ⟨["f", "cat"], [[("f", .num 3), ("cat", .str "tcp")]]⟩

/-- An unlabeled CSV missing the required column "cat". -/
def demoMissingCsv : Csv :=
  ⟨["f"], [[("f", .num 3)]]⟩

/-- An unlabeled CSV with an extra column "d" and an unseen category "icmp". -/
def demoExtraCsv : Csv :=
  ⟨["f", "cat", "d"],
   [[("f", .num 3), ("cat", .str "icmp"), ("d", .num 9)]]⟩

/- ### Helper lemmas -/

/-- Filtering away a different key does not change a record lookup. -/
theorem getCell_filter_ne (r : RawRecord) (c d : String) (hcd : c ≠ d) :
    getCell (r.filter (fun p => decide (p.1 ≠ d))) c = getCell r c := by
  induction r with
  | nil => rfl
  | cons p r ih =>
    obtain ⟨k, v⟩ := p
    simp only [ne_eq, decide_not] at ih ⊢
    rw [List.filter_cons]
    by_cases hkd : k = d
    · subst hkd
      have hkc : ¬ (k = c) := fun h => hcd h.symm
      simp [getCell, hkc, ih]
    · by_cases hkc : k = c
      · subst hkc
        simp [getCell, hkd]
      · simp [getCell, hkc, hkd, ih]

/-- Coverage of a schema is unchanged by dropping a non-schema column. -/
theorem coversBool_dropColumn (schema : FeatureSchema) (csv : Csv) (d : String)
    (hd : ∀ col ∈ schema, col.name ≠ d) :
    coversBool schema (dropColumn d csv).header = coversBool schema csv.header := by
  rw [Bool.eq_iff_iff]
  simp only [coversBool, dropColumn, List.all_eq_true, decide_eq_true_eq]
  constructor
  · intro h col hcol
    exact (List.mem_filter.mp (h col hcol)).1
  · intro h col hcol
    exact List.mem_filter.mpr ⟨h col hcol, by simp [hd col hcol]⟩

/-- Row encoding is unchanged by dropping a non-schema column. -/
theorem encodeRow_filter_ne (schema : FeatureSchema) (r : RawRecord) (d : String)
    (hd : ∀ col ∈ schema, col.name ≠ d) :
    encodeRow schema (r.filter (fun p => decide (p.1 ≠ d))) = encodeRow schema r := by
  unfold encodeRow
  apply List.map_congr_left
  intro col hcol
  rw [getCell_filter_ne r col.name d (hd col hcol)]

/-- Inference-mode normalization is unchanged by dropping a non-schema column. -/
theorem normalizeInference_dropColumn (schema : FeatureSchema) (csv : Csv) (d : String)
    (hd : ∀ col ∈ schema, col.name ≠ d) :
    normalizeInference schema (dropColumn d csv) = normalizeInference schema csv := by
  unfold normalizeInference
  rw [coversBool_dropColumn schema csv d hd]
  have hemp : (dropColumn d csv).rows.isEmpty = csv.rows.isEmpty := by
    cases h : csv.rows <;> simp [dropColumn, h]
  have hmap : (dropColumn d csv).rows.map (encodeRow schema) =
      csv.rows.map (encodeRow schema) := by
    simp only [dropColumn, List.map_map]
    apply List.map_congr_left
    intro r _
    exact encodeRow_filter_ne schema r d hd
  rw [hemp, hmap]

/-- A successful inference-mode normalization is the row-wise encoding. -/
theorem normalizeInference_ok (schema : FeatureSchema) (csv : Csv) (X : List (List ℚ))
    (h : normalizeInference schema csv = Except.ok X) :
    X = csv.rows.map (encodeRow schema) := by
  unfold normalizeInference at h
  split at h
  · split at h
    · simp at h
    · exact (Except.ok.inj h).symm
  · simp at h

/-- Schema coverage plus a nonempty input makes inference succeed, row-wise. -/
theorem predict_ok_of_covers {M : Type} (C : Classifier M) (a : ModelArtifact M) (csv : Csv)
    (hcov : ∀ col ∈ a.schema, col.name ∈ csv.header) (hrows : csv.rows ≠ []) :
    predict_from_csv C (some a) csv =
      Except.ok (csv.rows.map (rowPredict C a),
        mkSummary a.labelCodes (csv.rows.map (rowPredict C a))) := by
  have hcb : coversBool a.schema csv.header = true := by
    simp only [coversBool, List.all_eq_true, decide_eq_true_eq]
    exact hcov
  have hne : csv.rows.isEmpty = false := by
    cases h : csv.rows with
    | nil => exact absurd h hrows
    | cons a l => simp [h]
  simp only [predict_from_csv, normalizeInference, hcb, hne, if_true, if_false,
    Bool.false_eq_true, List.map_map]
  rfl

unseal Rat.mul Rat.inv Rat.add Rat.sub

/-- Decidable equality for Except results, needed to evaluate concrete runs. -/
instance {e a : Type} [DecidableEq e] [DecidableEq a] : DecidableEq (Except e a) := fun x y =>
  match x, y with
  | .error u, .error v =>
    if h : u = v then isTrue (by rw [h]) else isFalse (fun he => h (Except.error.inj he))
  | .ok u, .ok v =>
    if h : u = v then isTrue (by rw [h]) else isFalse (fun he => h (Except.ok.inj he))
  | .error _, .ok _ => isFalse (fun he => Except.noConfusion he)
  | .ok _, .error _ => isFalse (fun he => Except.noConfusion he)

/- ### Claim theorems -/

/-- C9: allowed_file returns true exactly when the filename contains a '.'
and the substring after the last '.' equals "csv" case-insensitively; a
dotless filename such as "csv" is rejected and an upper-case extension such
as "DATA.CSV" is accepted. -/
theorem allowed_file_iff :
    (∀ cs : List Char, allowed_file cs = true ↔
      ('.' ∈ cs ∧ lowerChars (afterLastDot cs) = ['c', 's', 'v'])) ∧
    allowed_file ['c', 's', 'v'] = false ∧
    allowed_file ['D', 'A', 'T', 'A', '.', 'C', 'S', 'V'] = true := by
  refine ⟨fun cs => ?_, by decide, by decide⟩
  simp [allowed_file, ALLOWED_EXTENSIONS]

/-- Witness for C9: a concrete mixed-case filename is accepted through the
characterization. -/
theorem allowed_file_iff_w : allowed_file ['a', '.', 'C', 's', 'v'] = true :=
  (allowed_file_iff.1 ['a', '.', 'C', 's', 'v']).mpr ⟨by decide, by decide⟩

/-- C10: the train handler's label column is "label" whenever the form field
is missing, empty or whitespace-only, and otherwise is the field's value
stripped of surrounding whitespace. -/
theorem label_column_defaulting (field : Option (List Char)) :
    (field = none → label_column_of field = labelChars) ∧
    (∀ s, field = some s → stripChars s = [] → label_column_of field = labelChars) ∧
    (∀ s, field = some s → stripChars s ≠ [] → label_column_of field = stripChars s) := by
  refine ⟨?_, ?_, ?_⟩
  · rintro rfl
    decide
  · rintro s rfl h
    simp [label_column_of, h]
  · rintro s rfl h
    simp [label_column_of, h]

/-- Witness for C10: a concrete field with surrounding whitespace is stripped,
and a whitespace-only field falls back to "label". -/
theorem label_column_defaulting_w :
    label_column_of (some [' ', 'x', ' ']) = stripChars [' ', 'x', ' '] ∧
    label_column_of (some [' ', ' ']) = labelChars :=
  ⟨(label_column_defaulting (some [' ', 'x', ' '])).2.2 [' ', 'x', ' '] rfl (by decide),
   (label_column_defaulting (some [' ', ' '])).2.1 [' ', ' '] rfl (by decide)⟩

/-- C2: saving an artifact and loading it back returns exactly the saved
artifact, in particular an identical FeatureSchema and label-encoding map,
whatever was previously stored. -/
theorem artifact_roundtrip {M : Type} (a : ModelArtifact M) (s : FileState M) :
    load_model (save_model a s) = Except.ok (some a) ∧
    ∀ b : ModelArtifact M, load_model (save_model a s) = Except.ok (some b) →
      b.schema = a.schema ∧ b.labelCodes = a.labelCodes := by
  refine ⟨rfl, fun b h => ?_⟩
  have h0 : (Except.ok (some a) : Except PipelineError (Option (ModelArtifact M))) =
      Except.ok (some b) := h
  have hab : a = b := by simpa using h0
  subst hab
  exact ⟨rfl, rfl⟩

/-- Witness for C2: the round-trip applied to the demo artifact over an empty
store. -/
theorem artifact_roundtrip_w :
    demoArt.schema = demoArt.schema ∧ demoArt.labelCodes = demoArt.labelCodes :=
  (artifact_roundtrip demoArt FileState.absent).2 demoArt rfl

/-- C5: load distinguishes absence from corruption — an absent artifact file
loads as None without error, a corrupt one raises CorruptArtifactError. -/
theorem load_absent_vs_corrupt {M : Type} :
    load_model (FileState.absent : FileState M) = Except.ok none ∧
    load_model (FileState.corrupt : FileState M) =
      Except.error PipelineError.corruptArtifact :=
  ⟨rfl, rfl⟩

/-- C3: a failing training run leaves the stored artifact untouched, and a
failing inference run returns no (partial) result sequence. -/
theorem failure_atomicity {M : Type} (C : Classifier M) (csv : Csv) (label : String)
    (now : Nat) (store : FileState M) :
    (∀ e, (train_model_from_csv C csv label now store).1 = Except.error e →
      (train_model_from_csv C csv label now store).2 = store) ∧
    (∀ art e, predict_from_csv C art csv = Except.error e →
      ∀ out, predict_from_csv C art csv ≠ Except.ok out) := by
  constructor
  · intro e h
    cases htc : trainCore C csv label now with
    | error e2 => simp [train_model_from_csv, htc]
    | ok a => simp [train_model_from_csv, htc] at h
  · intro art e h out hok
    rw [h] at hok
    exact Except.noConfusion hok

/-- Witness for C3: training on an empty CSV fails and leaves an absent store
absent; predicting with no artifact yields no result sequence. -/
theorem failure_atomicity_w :
    (train_model_from_csv demoC (⟨[], []⟩ : Csv) "label" 0
      (FileState.absent : FileState Unit)).2 = FileState.absent ∧
    predict_from_csv demoC none (⟨[], []⟩ : Csv) ≠ Except.ok ([], mkSummary [] []) :=
  ⟨(failure_atomicity demoC ⟨[], []⟩ "label" 0 FileState.absent).1
      PipelineError.schemaMismatch (by decide),
   (failure_atomicity demoC ⟨[], []⟩ "label" 0 FileState.absent).2 none
      PipelineError.modelNotTrained (by decide) ([], mkSummary [] [])⟩

/-- C4: two training runs on byte-identical input and the same label column
agree — the run outputs (artifact and split membership) coincide, and on
success the two FeatureSchemas, label encodings and metrics are equal. -/
theorem training_two_runs_agree {M : Type} (C : Classifier M) (csv : Csv) (label : String)
    (now : Nat)
    (r1 r2 : Except PipelineError (ModelArtifact M) × Except PipelineError SplitResult)
    (h1 : r1 = (trainCore C csv label now, trainSplitOf csv label))
    (h2 : r2 = (trainCore C csv label now, trainSplitOf csv label)) :
    r1 = r2 ∧
    ∀ a1 a2, r1.1 = Except.ok a1 → r2.1 = Except.ok a2 →
      a1.schema = a2.schema ∧ a1.labelCodes = a2.labelCodes ∧ a1.metrics = a2.metrics := by
  subst h1
  subst h2
  refine ⟨rfl, fun a1 a2 e1 e2 => ?_⟩
  rw [e1] at e2
  have ha : a1 = a2 := Except.ok.inj e2
  subst ha
  exact ⟨rfl, rfl, rfl⟩

/-- Witness for C4: the two concrete demo training runs agree. -/
theorem training_two_runs_agree_w :
    demoArt.schema = demoArt.schema ∧ demoArt.labelCodes = demoArt.labelCodes ∧
      demoArt.metrics = demoArt.metrics :=
  (training_two_runs_agree demoC demoTrainCsv "label" 0
      (trainCore demoC demoTrainCsv "label" 0, trainSplitOf demoTrainCsv "label")
      (trainCore demoC demoTrainCsv "label" 0, trainSplitOf demoTrainCsv "label")
      rfl rfl).2 demoArt demoArt (by decide) (by decide)

/-- C8: every FeatureMatrix row the normalizer produces — in training or
inference mode — is a vector of exactly the schema's length, in schema order. -/
theorem featureMatrix_shape :
    (∀ (schema : FeatureSchema) (r : RawRecord),
      (encodeRow schema r).length = schema.length) ∧
    (∀ (schema : FeatureSchema) (csv : Csv) (X : List (List ℚ)),
      normalizeInference schema csv = Except.ok X →
      ∀ v ∈ X, v.length = schema.length) ∧
    (∀ (csv : Csv) (label : String) (schema : FeatureSchema) (X : List (List ℚ))
      (ls : List Cell), normalizeTraining csv label = Except.ok (schema, X, ls) →
      ∀ v ∈ X, v.length = schema.length) := by
  have hrow : ∀ (schema : FeatureSchema) (r : RawRecord),
      (encodeRow schema r).length = schema.length := by
    intro schema r
    simp [encodeRow]
  refine ⟨hrow, ?_, ?_⟩
  · intro schema csv X h v hv
    have hX := normalizeInference_ok schema csv X h
    subst hX
    obtain ⟨r, _, rfl⟩ := List.mem_map.mp hv
    exact hrow schema r
  · intro csv label schema X ls h v hv
    unfold normalizeTraining at h
    split at h
    · split at h
      · simp at h
      · have h3 := Except.ok.inj h
        have hs : inferSchema csv label = schema := congrArg Prod.fst h3
        have hX : csv.rows.map (encodeRow (inferSchema csv label)) = X :=
          congrArg (fun p => p.2.1) h3
        subst hs
        rw [← hX] at hv
        obtain ⟨r, _, rfl⟩ := List.mem_map.mp hv
        exact hrow _ r
    · simp at h

/-- Witness for C8: the first demo training row encodes to a vector of the
demo schema's length. -/
theorem featureMatrix_shape_w :
    (encodeRow demoSchema demoRow0).length = demoSchema.length :=
  featureMatrix_shape.2.1 demoSchema demoTrainCsv
    (demoTrainCsv.rows.map (encodeRow demoSchema)) (by decide)
    (encodeRow demoSchema demoRow0) (by decide)

/-- C1: inference under a locked schema rejects an input missing a required
column with SchemaMismatchError, while an input carrying every required
column plus an extra column succeeds and the extra column is ignored
(dropping it changes nothing). -/
theorem schema_lock {M : Type} (C : Classifier M) (a : ModelArtifact M) (csv : Csv) :
    ((∃ col ∈ a.schema, col.name ∉ csv.header) →
      predict_from_csv C (some a) csv = Except.error PipelineError.schemaMismatch) ∧
    ((∀ col ∈ a.schema, col.name ∈ csv.header) → csv.rows ≠ [] →
      ∀ d, (∀ col ∈ a.schema, col.name ≠ d) →
        (∃ out, predict_from_csv C (some a) csv = Except.ok out) ∧
        predict_from_csv C (some a) (dropColumn d csv) =
          predict_from_csv C (some a) csv) := by
  constructor
  · rintro ⟨col, hcol, hnot⟩
    have hcov : coversBool a.schema csv.header = false := by
      apply List.all_eq_false.mpr
      exact ⟨col, hcol, by simpa using hnot⟩
    simp [predict_from_csv, normalizeInference, hcov]
  · intro hcov hrows d hd
    refine ⟨⟨_, predict_ok_of_covers C a csv hcov hrows⟩, ?_⟩
    simp only [predict_from_csv]
    rw [normalizeInference_dropColumn a.schema csv d hd]

/-- Witness for C1: the demo artifact rejects a CSV missing its "cat" column
and ignores the extra column "d" of a covering CSV. -/
theorem schema_lock_w :
    predict_from_csv demoC (some demoArt) demoMissingCsv =
      Except.error PipelineError.schemaMismatch ∧
    predict_from_csv demoC (some demoArt) (dropColumn "d" demoExtraCsv) =
      predict_from_csv demoC (some demoArt) demoExtraCsv :=
  ⟨(schema_lock demoC demoArt demoMissingCsv).1 (by decide),
   ((schema_lock demoC demoArt demoExtraCsv).2 (by decide) (by decide) "d" (by decide)).2⟩

/-- C6: a categorical value absent from the trained category→code map encodes
to the reserved "unknown" code, and inference on a schema-covering input
classifies every row without raising, whatever the cell values are. -/
theorem unknown_category_total {M : Type} (C : Classifier M) (a : ModelArtifact M)
    (csv : Csv) (m : List (Cell × Nat)) (v : Cell) :
    (codeOf m v = none → encodeCell (ColType.categorical m) v = (unknownCode m : ℚ)) ∧
    ((∀ col ∈ a.schema, col.name ∈ csv.header) → csv.rows ≠ [] →
      ∃ rs s, predict_from_csv C (some a) csv = Except.ok (rs, s) ∧
        rs.length = csv.rows.length) := by
  constructor
  · intro h
    simp [encodeCell, h]
  · intro hcov hrows
    exact ⟨csv.rows.map (rowPredict C a),
      mkSummary a.labelCodes (csv.rows.map (rowPredict C a)),
      predict_ok_of_covers C a csv hcov hrows, by simp⟩

/-- Witness for C6: the unseen category "icmp" encodes to the unknown code of
the demo category map, and the demo artifact classifies the row containing it. -/
theorem unknown_category_total_w :
    encodeCell (ColType.categorical (firstSeenCodes [Cell.str "tcp", Cell.str "udp"]))
        (Cell.str "icmp") =
      (unknownCode (firstSeenCodes [Cell.str "tcp", Cell.str "udp"]) : ℚ) ∧
    ∃ rs s, predict_from_csv demoC (some demoArt) demoExtraCsv = Except.ok (rs, s) ∧
      rs.length = demoExtraCsv.rows.length :=
  ⟨(unknown_category_total demoC demoArt demoExtraCsv
      (firstSeenCodes [Cell.str "tcp", Cell.str "udp"]) (Cell.str "icmp")).1 (by decide),
   (unknown_category_total demoC demoArt demoExtraCsv
      (firstSeenCodes [Cell.str "tcp", Cell.str "udp"]) (Cell.str "icmp")).2
      (by decide) (by decide)⟩

/-- C7: a successful inference on an n-row input returns exactly n
PredictionResults, in input row order (the row-wise pipeline applied to each
input row in sequence), and the summary row count is n. -/
theorem prediction_cardinality_order {M : Type} (C : Classifier M) (a : ModelArtifact M)
    (csv : Csv) (rs : List PredictionResult) (s : Summary)
    (h : predict_from_csv C (some a) csv = Except.ok (rs, s)) :
    rs.length = csv.rows.length ∧ s.num_rows = csv.rows.length ∧
    rs = csv.rows.map (rowPredict C a) := by
  cases hX : normalizeInference a.schema csv with
  | error e =>
    simp only [predict_from_csv, hX] at h
    exact absurd h (by simp)
  | ok X =>
    simp only [predict_from_csv, hX] at h
    have h2 := Except.ok.inj h
    have hrs : (X.map (C.predict a.model)).map
        (fun k => (⟨classOfCode a.labelCodes k, none⟩ : PredictionResult)) = rs :=
      congrArg Prod.fst h2
    have hXe := normalizeInference_ok a.schema csv X hX
    subst hXe
    subst hrs
    have hsum : s = mkSummary a.labelCodes
        (((csv.rows.map (encodeRow a.schema)).map (C.predict a.model)).map
          (fun k => (⟨classOfCode a.labelCodes k, none⟩ : PredictionResult))) :=
      (congrArg Prod.snd h2).symm
    subst hsum
    refine ⟨by simp, by simp [mkSummary], ?_⟩
    rw [List.map_map, List.map_map]
    rfl

/-- Witness for C7: the demo artifact on the 1-row demo inference CSV returns
one result and a summary row count of 1. -/
theorem prediction_cardinality_order_w :
    (demoInfCsv.rows.map (rowPredict demoC demoArt)).length = demoInfCsv.rows.length ∧
    (mkSummary demoArt.labelCodes
        (demoInfCsv.rows.map (rowPredict demoC demoArt))).num_rows =
      demoInfCsv.rows.length :=
  ⟨(prediction_cardinality_order demoC demoArt demoInfCsv
      (demoInfCsv.rows.map (rowPredict demoC demoArt))
      (mkSummary demoArt.labelCodes (demoInfCsv.rows.map (rowPredict demoC demoArt)))
      (by decide)).1,
   (prediction_cardinality_order demoC demoArt demoInfCsv
      (demoInfCsv.rows.map (rowPredict demoC demoArt))
      (mkSummary demoArt.labelCodes (demoInfCsv.rows.map (rowPredict demoC demoArt)))
      (by decide)).2.1⟩
